import Mathlib

/-!
# GPU ray casting sample (`Main.cpp`): shallow embedding

The shaders and the host code of `Main.cpp` are embedded over an arbitrary linearly ordered
field `K` (the `float` of the source); the transcendental library functions the source calls
(`sqrt`, `tanf`, `cos`, `sin`, `pow`, the constant `M_PI`) are passed in a record `MathFns K`,
so every definition is executable.  The theorems about real arithmetic instantiate `K` with `ℝ`
and the record with `Real.sqrt`, `Real.tan`, ...
-/

namespace ComputeShader

/-! ## Vectors -/

/-- Modelled from the spec: the type `vec3` (GLSL built-in, and `framework.h` on the host side,
which is not among the sources): three `float` components. -/
@[ext]
structure Vec3 (K : Type) where
  x : K
  y : K
  z : K
deriving DecidableEq, Repr

/-- Modelled from the spec: the type `vec4` (GLSL built-in): four `float` components. -/
@[ext]
structure Vec4 (K : Type) where
  x : K
  y : K
  z : K
  w : K
deriving DecidableEq, Repr

/-- The library functions on `float` that the source calls; they are parameters of the model. -/
structure MathFns (K : Type) where
  /-- The function `sqrt` / `sqrtf`. -/
  sqrt : K → K
  /-- The function `tanf`. -/
  tan : K → K
  /-- The function `cos`. -/
  cos : K → K
  /-- The function `sin`. -/
  sin : K → K
  /-- The function `pow` of GLSL. -/
  pow : K → K → K
  /-- The constant `M_PI`. -/
  pi : K

section Vectors

variable {K : Type} [LinearOrderedField K]

instance : Zero (Vec3 K) := ⟨⟨0, 0, 0⟩⟩

instance : Add (Vec3 K) := ⟨fun a b => ⟨a.x + b.x, a.y + b.y, a.z + b.z⟩⟩

instance : Sub (Vec3 K) := ⟨fun a b => ⟨a.x - b.x, a.y - b.y, a.z - b.z⟩⟩

instance : Neg (Vec3 K) := ⟨fun a => ⟨-a.x, -a.y, -a.z⟩⟩

/-- Componentwise product `vec3 * vec3`. -/
instance : Mul (Vec3 K) := ⟨fun a b => ⟨a.x * b.x, a.y * b.y, a.z * b.z⟩⟩

/-- Product `vec3 * float`. -/
instance : HMul (Vec3 K) K (Vec3 K) := ⟨fun a s => ⟨a.x * s, a.y * s, a.z * s⟩⟩

/-- Quotient `vec3 / float`. -/
instance : HDiv (Vec3 K) K (Vec3 K) := ⟨fun a s => ⟨a.x / s, a.y / s, a.z / s⟩⟩

/-- Modelled from the spec: `dot` (GLSL built-in / `framework.h`), the Euclidean scalar product. -/
def dot (a b : Vec3 K) : K := a.x * b.x + a.y * b.y + a.z * b.z

/-- Modelled from the spec: `cross` (`framework.h`), the vector product. -/
def cross (a b : Vec3 K) : Vec3 K :=
  ⟨a.y * b.z - a.z * b.y, a.z * b.x - a.x * b.z, a.x * b.y - a.y * b.x⟩

/-- Modelled from the spec: `length` (GLSL built-in / `framework.h`), `sqrt(dot(v, v))`. -/
def length (m : MathFns K) (v : Vec3 K) : K := m.sqrt (dot v v)

/-- Modelled from the spec: `normalize` (GLSL built-in / `framework.h`), `v * (1 / length(v))`. -/
def normalize (m : MathFns K) (v : Vec3 K) : Vec3 K := v * (1 / length m v)

end Vectors

/-! ## The ray tracing fragment shader (`fragmentSource`) -/

/-- The shader struct `Material`, also the host struct of the same name. -/
structure Material (K : Type) where
  ka : Vec3 K
  kd : Vec3 K
  ks : Vec3 K
  shininess : K
  F0 : Vec3 K
  rough : Int
  reflective : Int
deriving DecidableEq, Repr

/-- The struct `Light`. -/
structure Light (K : Type) where
  direction : Vec3 K
  Le : Vec3 K
  La : Vec3 K
deriving DecidableEq, Repr

/-- The struct `Sphere`. -/
structure Sphere (K : Type) where
  center : Vec3 K
  radius : K
deriving DecidableEq, Repr

/-- The shader struct `Hit`. -/
structure Hit (K : Type) where
  t : K
  position : Vec3 K
  normal : Vec3 K
  mat : Int
deriving DecidableEq, Repr

/-- The shader struct `Ray`. -/
structure Ray (K : Type) where
  start : Vec3 K
  dir : Vec3 K
deriving DecidableEq, Repr

/-- The shader constant `nMaxObjects`. -/
def nMaxObjects : Nat := 500

section RayTracer

variable {K : Type} [LinearOrderedField K]

/-- The local `a` of `intersect`. -/
def intersect.a (ray : Ray K) : K := dot ray.dir ray.dir

/-- The local `b` of `intersect`. -/
def intersect.b (object : Sphere K) (ray : Ray K) : K :=
  dot (ray.start - object.center) ray.dir * 2

/-- The local `c` of `intersect`. -/
def intersect.c (object : Sphere K) (ray : Ray K) : K :=
  dot (ray.start - object.center) (ray.start - object.center) - object.radius * object.radius

/-- The local `discr` of `intersect`. -/
def intersect.discr (object : Sphere K) (ray : Ray K) : K :=
  intersect.b object ray * intersect.b object ray - 4 * intersect.a ray * intersect.c object ray

/-- The local `t1` of `intersect`. -/
def intersect.t1 (m : MathFns K) (object : Sphere K) (ray : Ray K) : K :=
  (-intersect.b object ray + m.sqrt (intersect.discr object ray)) / 2 / intersect.a ray

/-- The local `t2` of `intersect`. -/
def intersect.t2 (m : MathFns K) (object : Sphere K) (ray : Ray K) : K :=
  (-intersect.b object ray - m.sqrt (intersect.discr object ray)) / 2 / intersect.a ray

/-- The shader function `intersect`.  The local `Hit hit;` is declared without an initialiser;
`hit0` is its indeterminate initial content. -/
def intersect (m : MathFns K) (hit0 : Hit K) (object : Sphere K) (ray : Ray K) : Hit K :=
  let hit : Hit K := { hit0 with t := -1 }
  if intersect.discr object ray < 0 then hit
  else
    let t1 := intersect.t1 m object ray
    let t2 := intersect.t2 m object ray
    if t1 ≤ 0 then hit
    else
      let t := if t2 > 0 then t2 else t1
      let position := ray.start + ray.dir * t
      { hit with t := t, position := position, normal := (position - object.center) / object.radius }

/-- The body of the `for` loop of `firstIntersect` at index `o`. -/
def firstIntersect.step (m : MathFns K) (hit0 : Nat → Hit K) (nObjects : Nat)
    (objects : Nat → Sphere K) (ray : Ray K) (bestHit : Hit K) (o : Nat) : Hit K :=
  let hit := intersect m (hit0 o) (objects o) ray
  let hit : Hit K := if o < nObjects / 2 then { hit with mat := 0 } else { hit with mat := 1 }
  if hit.t > 0 ∧ (bestHit.t < 0 ∨ hit.t < bestHit.t) then hit else bestHit

/-- The shader function `firstIntersect`, over the uniforms `nObjects` and `objects`.
`bestHit0` is the indeterminate initial content of the local `bestHit`, and `hit0 o` that of
the local of the call of `intersect` in round `o`. -/
def firstIntersect (m : MathFns K) (bestHit0 : Hit K) (hit0 : Nat → Hit K) (nObjects : Nat)
    (objects : Nat → Sphere K) (ray : Ray K) : Hit K :=
  let bestHit : Hit K := { bestHit0 with t := -1 }
  let bestHit := (List.range nObjects).foldl (firstIntersect.step m hit0 nObjects objects ray) bestHit
  if dot ray.dir bestHit.normal > 0 then { bestHit with normal := bestHit.normal * (-1 : K) }
  else bestHit

end RayTracer

/-! ## The metaball fragment shader (`MetaBall`) -/

namespace MetaBall

variable {K : Type} [LinearOrderedField K]

end MetaBall

/-! ## The vertex shader (`vertexSource`) -/

/-- The outputs of the vertex shader. -/
structure VertexOut (K : Type) where
  gl_Position : Vec4 K
  p : Vec3 K

/-- The function `main` of the vertex shader; `(vx, vy)` is the attribute `cCamWindowVertex`. -/
def vertexMain {K : Type} [LinearOrderedField K] (wLookAt wRight wUp : Vec3 K) (vx vy : K) :
    VertexOut K :=
  { gl_Position := ⟨vx, vy, 0, 1⟩
    p := wLookAt + wRight * vx + wUp * vy }

/-! ## The host program -/

/-- The host struct `Camera`. -/
structure Camera (K : Type) where
  eye : Vec3 K
  lookat : Vec3 K
  right : Vec3 K
  up : Vec3 K
  fov : K
deriving DecidableEq, Repr

/-- The host class `Scene`; a `std::vector` of pointers to freshly allocated objects is the list
of the objects. -/
structure Scene (K : Type) where
  metaballs : List (Sphere K)
  objects : List (Sphere K)
  lights : List (Light K)
  camera : Camera K
  materials : List (Material K)
deriving DecidableEq, Repr

/-- The two GPU programs, named after the globals `shader` and `shader_metaball`. -/
inductive Program where
  | shader
  | shader_metaball
deriving DecidableEq, Repr

/-- The names of the uniforms the host writes, the array index as it is printed by `sprintf`. -/
inductive UniformName where
  | nObjects
  | objectCenter (o : Nat)
  | objectRadius (o : Nat)
  | materialKa (mat : Nat)
  | materialKd (mat : Nat)
  | materialKs (mat : Nat)
  | materialShininess (mat : Nat)
  | materialF0 (mat : Nat)
  | materialRough (mat : Nat)
  | materialReflective (mat : Nat)
  | lightLa
  | lightLe
  | lightDirection
  | wEye
  | wLookAt
  | wRight
  | wUp
  | time
deriving DecidableEq, Repr

/-- The values passed to `setUniform`. -/
inductive UniformValue (K : Type) where
  | vec3 (v : Vec3 K)
  | float (x : K)
  | int (n : Int)
deriving DecidableEq, Repr

/-- One call of `setUniform(value, name)`. -/
structure UniformWrite (K : Type) where
  name : UniformName
  value : UniformValue K
deriving DecidableEq, Repr

/-- The array index a uniform name carries, if it is an array element. -/
def UniformName.objectIndex : UniformName → Option Nat
  | UniformName.objectCenter o => some o
  | UniformName.objectRadius o => some o
  | _ => none

/-- The index into `materials` a uniform name carries, if it has one. -/
def UniformName.materialIndex : UniformName → Option Nat
  | UniformName.materialKa mat => some mat
  | UniformName.materialKd mat => some mat
  | UniformName.materialKs mat => some mat
  | UniformName.materialShininess mat => some mat
  | UniformName.materialF0 mat => some mat
  | UniformName.materialRough mat => some mat
  | UniformName.materialReflective mat => some mat
  | _ => none

section Host

variable {K : Type} [LinearOrderedField K]

/-- The constructor `RoughMaterial(_kd, _ks, _shininess)`; it does not assign `F0`, and `m0` is
the content of the object before the constructor body runs. -/
def RoughMaterial (m : MathFns K) (m0 : Material K) (_kd _ks : Vec3 K) (_shininess : K) :
    Material K :=
  { m0 with ka := _kd * m.pi, kd := _kd, ks := _ks, shininess := _shininess, rough := 1,
            reflective := 0 }

/-- The constructor `SmoothMaterial(_F0)`; it assigns `F0` and the two flags only. -/
def SmoothMaterial (m0 : Material K) (_F0 : Vec3 K) : Material K :=
  { m0 with F0 := _F0, rough := 0, reflective := 1 }

/-- The constructor `Light(_direction, _Le, _La)`. -/
def Light.new (m : MathFns K) (_direction _Le _La : Vec3 K) : Light K :=
  { direction := normalize m _direction, Le := _Le, La := _La }

/-- The method `Camera::set`; it assigns every field of the camera. -/
def Camera.set (m : MathFns K) (_eye _lookat vup : Vec3 K) (_fov : K) : Camera K :=
  let eye := _eye
  let lookat := _lookat
  let fov := _fov
  let w := eye - lookat
  let f := length m w
  let right := normalize m (cross vup w) * f * m.tan (fov / 2)
  let up := normalize m (cross w right) * f * m.tan (fov / 2)
  { eye := eye, lookat := lookat, right := right, up := up, fov := fov }

/-- The method `Camera::Animate`. -/
def Camera.Animate (m : MathFns K) (c : Camera K) (dt : K) : Camera K :=
  let eye : Vec3 K :=
    ⟨(c.eye.x - c.lookat.x) * m.cos dt + (c.eye.z - c.lookat.z) * m.sin dt + c.lookat.x,
     c.eye.y,
     -(c.eye.x - c.lookat.x) * m.sin dt + (c.eye.z - c.lookat.z) * m.cos dt + c.lookat.z⟩
  Camera.set m eye c.lookat c.up c.fov

/-- The method `setUniformMaterials` of `Shader` and of `Shader_metaball`: the calls of
`setUniform` it makes, in order. -/
def setUniformMaterials (materials : List (Material K)) : List (UniformWrite K) :=
  (materials.enum.map fun (mat, x) =>
    [⟨UniformName.materialKa mat, UniformValue.vec3 x.ka⟩,
     ⟨UniformName.materialKd mat, UniformValue.vec3 x.kd⟩,
     ⟨UniformName.materialKs mat, UniformValue.vec3 x.ks⟩,
     ⟨UniformName.materialShininess mat, UniformValue.float x.shininess⟩,
     ⟨UniformName.materialF0 mat, UniformValue.vec3 x.F0⟩,
     ⟨UniformName.materialRough mat, UniformValue.int x.rough⟩,
     ⟨UniformName.materialReflective mat, UniformValue.int x.reflective⟩]).flatten

/-- The method `setUniformLight`. -/
def setUniformLight (light : Light K) : List (UniformWrite K) :=
  [⟨UniformName.lightLa, UniformValue.vec3 light.La⟩,
   ⟨UniformName.lightLe, UniformValue.vec3 light.Le⟩,
   ⟨UniformName.lightDirection, UniformValue.vec3 light.direction⟩]

/-- The method `setUniformCamera`. -/
def setUniformCamera (camera : Camera K) : List (UniformWrite K) :=
  [⟨UniformName.wEye, UniformValue.vec3 camera.eye⟩,
   ⟨UniformName.wLookAt, UniformValue.vec3 camera.lookat⟩,
   ⟨UniformName.wRight, UniformValue.vec3 camera.right⟩,
   ⟨UniformName.wUp, UniformValue.vec3 camera.up⟩]

/-- The method `setUniformObjects`. -/
def setUniformObjects (objects : List (Sphere K)) : List (UniformWrite K) :=
  ⟨UniformName.nObjects, UniformValue.int objects.length⟩ ::
  (objects.enum.map fun (o, x) =>
    [⟨UniformName.objectCenter o, UniformValue.vec3 x.center⟩,
     ⟨UniformName.objectRadius o, UniformValue.float x.radius⟩]).flatten

/-- The method `setUniformTime` of `Shader_metaball`. -/
def setUniformTime (t : K) : List (UniformWrite K) :=
  [⟨UniformName.time, UniformValue.float t⟩]

/-- The method `Scene::build`.  `m0` and `m1` are the contents of the two freshly allocated
materials before their constructors run. -/
def Scene.build (m : MathFns K) (m0 m1 : Material K) (s : Scene K) : Scene K :=
  let eye : Vec3 K := ⟨0, 0, 2⟩
  let vup : Vec3 K := ⟨0, 1, 0⟩
  let lookat : Vec3 K := ⟨0, 0, 0⟩
  let fov : K := 45 * m.pi / 180
  let camera := Camera.set m eye lookat vup fov
  let lights := s.lights ++ [Light.new m ⟨10, 10, 10⟩ ⟨3, 3, 3⟩ ⟨0.4, 0.3, 0.3⟩]
  let kd : Vec3 K := ⟨0.3, 0.2, 0.1⟩
  let ks : Vec3 K := ⟨10, 10, 10⟩
  let materials := s.materials ++ [RoughMaterial m m0 kd ks 50]
  let materials := materials ++ [RoughMaterial m m1 kd ks 50]
  let objects := s.objects ++ [⟨⟨0.0, 0.0, 0.0⟩, 0.1⟩]
  let objects := objects ++ [⟨⟨0.0, 0.0, -0.5⟩, 0.1⟩]
  let objects := objects ++ [⟨⟨0.3, 0.0, -0.5⟩, 0.1⟩]
  let metaballs := s.metaballs ++ [⟨⟨0.0, 0.0, 0.0⟩, 0.1⟩]
  let metaballs := metaballs ++ [⟨⟨0.0, 0.0, -0.5⟩, 0.1⟩]
  let metaballs := metaballs ++ [⟨⟨0.3, 0.0, -0.5⟩, 0.1⟩]
  let metaballs := metaballs ++ [⟨⟨0.0, 0.0, 0.0⟩, 0.1⟩]
  let metaballs := metaballs ++ [⟨⟨0.0, 0.0, -0.5⟩, 0.1⟩]
  let metaballs := metaballs ++ [⟨⟨0.3, 0.0, -0.5⟩, 0.1⟩]
  { metaballs := metaballs, objects := objects, lights := lights, camera := camera,
    materials := materials }

/-- The method `Scene::setUniform`: the calls of `setUniform` on `shader`; `none` when
`lights[0]` does not exist. -/
def Scene.setUniform (s : Scene K) : Option (List (UniformWrite K)) :=
  match s.lights[0]? with
  | none => none
  | some light =>
    some (setUniformObjects s.objects ++ setUniformMaterials s.materials ++ setUniformLight light
      ++ setUniformCamera s.camera)

/-- The method `Scene::setUniform1`: the calls of `setUniform` on `shader_metaball`; `none` when
`lights[0]` does not exist. -/
def Scene.setUniform1 (s : Scene K) (t : K) : Option (List (UniformWrite K)) :=
  match s.lights[0]? with
  | none => none
  | some light =>
    some (setUniformObjects s.metaballs ++ setUniformMaterials s.materials ++ setUniformLight light
      ++ setUniformTime t ++ setUniformCamera s.camera)

/-- The method `Scene::Animate_buttons`. -/
def Scene.Animate_buttons (m : MathFns K) (s : Scene K) (dt : K) : Scene K :=
  { s with camera := s.camera.Animate m dt }

/-- The method `Scene::Animate`, whose body is empty. -/
def Scene.Animate (s : Scene K) (_dt : K) : Scene K := s

/-- The globals of the program (`scene`, `metaball`, `time_`) and what the GPU has been told:
the program in use, the uniforms written to each program, and the program in use at each
`Draw`, oldest first.  The frame counter and the timing printout of `onDisplay` are not part of
the state. -/
structure App (K : Type) where
  scene : Scene K
  metaball : Bool
  time_ : K
  inUse : Option Program
  uniforms : List (Program × UniformWrite K)
  frames : List (Option Program)

/-- The globals before `onInitialization`: an empty scene whose camera holds `camera`,
`metaball = false`, `time_ = 0`, no program in use and nothing drawn. -/
def App.initial (camera : Camera K) : App K :=
  { scene := { metaballs := [], objects := [], lights := [], camera := camera, materials := [] }
    metaball := false
    time_ := 0
    inUse := none
    uniforms := []
    frames := [] }

/-- The function `onInitialization`: it builds the scene (the creation of the quad and of the
two GPU programs leaves the state of the model as it is). -/
def onInitialization (m : MathFns K) (m0 m1 : Material K) (a : App K) : App K :=
  { a with scene := a.scene.build m m0 m1 }

/-- The function `onDisplay`: the choice of the program, its uniforms, and the `Draw`; `none`
when it reads `lights[0]` of a scene without lights.  Clearing the screen and swapping the
buffers leave the state of the model as it is. -/
def onDisplay (m : MathFns K) (a : App K) : Option (App K) :=
  if a.metaball then
    let time_ := a.time_ + 0.01
    let time_ := if time_ > 2 * m.pi then 0 else time_
    match a.scene.setUniform1 time_ with
    | none => none
    | some ws =>
      some { a with
        time_ := time_
        inUse := some Program.shader_metaball
        uniforms := a.uniforms ++ ws.map fun w => (Program.shader_metaball, w)
        frames := a.frames ++ [some Program.shader_metaball] }
  else
    match a.scene.setUniform with
    | none => none
    | some ws =>
      some { a with
        inUse := some Program.shader
        uniforms := a.uniforms ++ ws.map fun w => (Program.shader, w)
        frames := a.frames ++ [some Program.shader] }

/-- The function `onKeyboard` (the mouse position is not used). -/
def onKeyboard (m : MathFns K) (key : Char) (a : App K) : Option (App K) :=
  let r : Option (App K) :=
    if key = 'x' then
      if !a.metaball then onDisplay m { a with metaball := true }
      else onDisplay m { a with metaball := false }
    else some a
  match r with
  | none => none
  | some a =>
    let a := if key = 'a' then { a with scene := a.scene.Animate_buttons m 0.1 } else a
    let a := if key = 'd' then { a with scene := a.scene.Animate_buttons m (-0.1) } else a
    some a

/-- The function `onIdle`: `scene.Animate` does nothing, and the redisplay it asks for arrives
as a later call of `onDisplay`. -/
def onIdle (a : App K) : App K :=
  { a with scene := a.scene.Animate 0.1 }

/-- The callbacks GLUT invokes after `onInitialization`. -/
inductive Event where
  | keyboard (key : Char)
  | display
  | idle
deriving DecidableEq, Repr

/-- One callback. -/
def handle (m : MathFns K) (e : Event) (a : App K) : Option (App K) :=
  match e with
  | Event.keyboard key => onKeyboard m key a
  | Event.display => onDisplay m a
  | Event.idle => some (onIdle a)

/-- A sequence of callbacks, oldest first. -/
def run (m : MathFns K) : List Event → App K → Option (App K)
  | [], a => some a
  | e :: es, a =>
    match handle m e a with
    | none => none
    | some a => run m es a

end Host

/-! ## Definitions in the words of the specification -/

/-- The record `m` holds the functions of real analysis: the setting "real arithmetic" of the
specification. -/
structure MathFns.IsReal (m : MathFns ℝ) : Prop where
  sqrt_eq : m.sqrt = Real.sqrt
  tan_eq : m.tan = Real.tan
  cos_eq : m.cos = Real.cos
  sin_eq : m.sin = Real.sin
  pow_eq : m.pow = fun x y => x ^ y
  pi_eq : m.pi = Real.pi

/-- The point of the ray at parameter `s` lies on the sphere:
`|start + s * dir - center| = radius`. -/
def onSphere {K : Type} [LinearOrderedField K] (m : MathFns K) (object : Sphere K) (ray : Ray K)
    (s : K) : Prop :=
  length m (ray.start + ray.dir * s - object.center) = object.radius

namespace MetaBall

variable {K : Type} [LinearOrderedField K]

end MetaBall

/-! ## Concrete inputs of the examples -/

section Fixtures

variable (K : Type) [LinearOrderedField K]

/-- The first sphere of the scene of `Scene::build`. -/
def firstSphere : Sphere K := ⟨⟨0.0, 0.0, 0.0⟩, 0.1⟩

/-- The ray from the eye `(0, 0, 2)` of the scene towards its `lookat` point. -/
def centralRay : Ray K := ⟨⟨0, 0, 2⟩, ⟨0, 0, -1⟩⟩

/-- The eye of the camera of `Scene::build`. -/
def sceneEye : Vec3 K := ⟨0, 0, 2⟩

/-- The point `lookat` of the camera of `Scene::build`. -/
def sceneLookat : Vec3 K := ⟨0, 0, 0⟩

/-- The vector `vup` of the camera of `Scene::build`. -/
def sceneVup : Vec3 K := ⟨0, 1, 0⟩

/-- A local `Hit` holding zeros. -/
def zeroHit : Hit K := ⟨0, 0, 0, 0⟩

/-- A material holding zeros. -/
def zeroMaterial : Material K := ⟨0, 0, 0, 0, 0, 0, 0⟩

/-- A camera holding zeros. -/
def zeroCamera : Camera K := ⟨0, 0, 0, 0, 0⟩

/-- The scene after `onInitialization`, the fresh objects holding zeros before their
constructors run. -/
def builtScene (m : MathFns K) : Scene K :=
  (onInitialization m (zeroMaterial K) (zeroMaterial K) (App.initial (zeroCamera K))).scene

/-- The ray from `(0.3, 0, 2)` in the direction `(0, 0, -1)`; of the spheres of the scene it
meets the third one only. -/
def sideRay : Ray K := ⟨⟨0.3, 0, 2⟩, ⟨0, 0, -1⟩⟩

/-- The uniform array `objects` of the ray tracer that `Scene::setUniform` uploads for the built
scene; array elements that are not written hold zeros. -/
def sceneObjects (m : MathFns K) : Nat → Sphere K :=
  fun o => (builtScene K m).objects.getD o ⟨0, 0⟩

end Fixtures

/-! ## Lemmas on vectors -/

section VectorLemmas

variable {K : Type} [LinearOrderedField K]

@[simp]
theorem Vec3.zero_x : (0 : Vec3 K).x = 0 := rfl

@[simp]
theorem Vec3.zero_y : (0 : Vec3 K).y = 0 := rfl

@[simp]
theorem Vec3.zero_z : (0 : Vec3 K).z = 0 := rfl

@[simp]
theorem Vec3.add_x (a b : Vec3 K) : (a + b).x = a.x + b.x := rfl

@[simp]
theorem Vec3.add_y (a b : Vec3 K) : (a + b).y = a.y + b.y := rfl

@[simp]
theorem Vec3.add_z (a b : Vec3 K) : (a + b).z = a.z + b.z := rfl

@[simp]
theorem Vec3.sub_x (a b : Vec3 K) : (a - b).x = a.x - b.x := rfl

@[simp]
theorem Vec3.sub_y (a b : Vec3 K) : (a - b).y = a.y - b.y := rfl

@[simp]
theorem Vec3.sub_z (a b : Vec3 K) : (a - b).z = a.z - b.z := rfl

@[simp]
theorem Vec3.neg_x (a : Vec3 K) : (-a).x = -a.x := rfl

@[simp]
theorem Vec3.neg_y (a : Vec3 K) : (-a).y = -a.y := rfl

@[simp]
theorem Vec3.neg_z (a : Vec3 K) : (-a).z = -a.z := rfl

@[simp]
theorem Vec3.mul_y (a b : Vec3 K) : (a * b).y = a.y * b.y := rfl

@[simp]
theorem Vec3.mul_z (a b : Vec3 K) : (a * b).z = a.z * b.z := rfl

@[simp]
theorem Vec3.smul_x (a : Vec3 K) (s : K) : (a * s).x = a.x * s := rfl

@[simp]
theorem Vec3.smul_y (a : Vec3 K) (s : K) : (a * s).y = a.y * s := rfl

@[simp]
theorem Vec3.smul_z (a : Vec3 K) (s : K) : (a * s).z = a.z * s := rfl

@[simp]
theorem Vec3.sdiv_x (a : Vec3 K) (s : K) : (a / s).x = a.x / s := rfl

@[simp]
theorem Vec3.sdiv_y (a : Vec3 K) (s : K) : (a / s).y = a.y / s := rfl

@[simp]
theorem Vec3.sdiv_z (a : Vec3 K) (s : K) : (a / s).z = a.z / s := rfl

theorem dot_self_nonneg (v : Vec3 K) : 0 ≤ dot v v := by
  unfold dot
  nlinarith [mul_self_nonneg v.x, mul_self_nonneg v.y, mul_self_nonneg v.z]

theorem dot_self_pos {v : Vec3 K} (h : v ≠ 0) : 0 < dot v v := by
  rcases lt_or_eq_of_le (dot_self_nonneg v) with h1 | h1
  · exact h1
  · exfalso
    apply h
    unfold dot at h1
    have hx : v.x = 0 := by
      nlinarith [mul_self_nonneg v.x, mul_self_nonneg v.y, mul_self_nonneg v.z]
    have hy : v.y = 0 := by
      nlinarith [mul_self_nonneg v.x, mul_self_nonneg v.y, mul_self_nonneg v.z]
    have hz : v.z = 0 := by
      nlinarith [mul_self_nonneg v.x, mul_self_nonneg v.y, mul_self_nonneg v.z]
    ext
    · exact hx
    · exact hy
    · exact hz

theorem dot_zero_zero : dot (0 : Vec3 K) 0 = 0 := by
  simp [dot]

theorem dot_smul_left (v u : Vec3 K) (s : K) : dot (v * s) u = dot v u * s := by
  simp only [dot, Vec3.smul_x, Vec3.smul_y, Vec3.smul_z]
  ring

theorem dot_smul_right (v u : Vec3 K) (s : K) : dot v (u * s) = dot v u * s := by
  simp only [dot, Vec3.smul_x, Vec3.smul_y, Vec3.smul_z]
  ring

theorem dot_cross_left (a b : Vec3 K) : dot (cross a b) a = 0 := by
  simp only [dot, cross]
  ring

theorem dot_cross_right (a b : Vec3 K) : dot (cross a b) b = 0 := by
  simp only [dot, cross]
  ring

theorem dot_comm (a b : Vec3 K) : dot a b = dot b a := by
  simp only [dot]
  ring

/-- The identity of Lagrange for the vector product. -/
theorem dot_cross_self (a b : Vec3 K) :
    dot (cross a b) (cross a b) = dot a a * dot b b - dot a b * dot a b := by
  simp only [dot, cross]
  ring

/-- A vector with a non-zero third component is not the zero vector. -/
theorem ne_zero_of_z {v : Vec3 K} (h : v.z ≠ 0) : v ≠ 0 := by
  rintro rfl
  exact h rfl

end VectorLemmas

theorem length_nonneg (m : MathFns ℝ) (hm : m.IsReal) (v : Vec3 ℝ) : 0 ≤ length m v := by
  unfold length
  rw [hm.sqrt_eq]
  exact Real.sqrt_nonneg _

theorem length_pos (m : MathFns ℝ) (hm : m.IsReal) {v : Vec3 ℝ} (h : v ≠ 0) :
    0 < length m v := by
  unfold length
  rw [hm.sqrt_eq]
  exact Real.sqrt_pos.2 (dot_self_pos h)

theorem length_smul (m : MathFns ℝ) (hm : m.IsReal) (v : Vec3 ℝ) {s : ℝ} (hs : 0 ≤ s) :
    length m (v * s) = length m v * s := by
  unfold length
  rw [hm.sqrt_eq, dot_smul_left, dot_smul_right, mul_assoc, Real.sqrt_mul (dot_self_nonneg v),
    Real.sqrt_mul_self hs]

theorem length_normalize (m : MathFns ℝ) (hm : m.IsReal) {v : Vec3 ℝ} (h : v ≠ 0) :
    length m (normalize m v) = 1 := by
  have hl := length_pos m hm h
  unfold normalize
  rw [length_smul m hm v (by positivity)]
  field_simp

theorem ne_zero_of_length_pos (m : MathFns ℝ) (hm : m.IsReal) {v : Vec3 ℝ}
    (h : 0 < length m v) : v ≠ 0 := by
  rintro rfl
  unfold length at h
  rw [hm.sqrt_eq, dot_zero_zero, Real.sqrt_zero] at h
  exact lt_irrefl _ h

/-! ## The function `intersect` -/

/-- The squared distance from the centre of the sphere to the point of the ray at parameter `s`
is the quadratic of `intersect` plus the squared radius. -/
theorem dot_ray_point {K : Type} [LinearOrderedField K] (object : Sphere K) (ray : Ray K)
    (s : K) :
    dot (ray.start + ray.dir * s - object.center) (ray.start + ray.dir * s - object.center)
      = intersect.a ray * s * s + intersect.b object ray * s + intersect.c object ray
        + object.radius * object.radius := by
  simp only [intersect.a, intersect.b, intersect.c, dot, Vec3.add_x, Vec3.add_y, Vec3.add_z,
    Vec3.sub_x, Vec3.sub_y, Vec3.sub_z, Vec3.smul_x, Vec3.smul_y, Vec3.smul_z]
  ring

theorem onSphere_iff (m : MathFns ℝ) (hm : m.IsReal) (object : Sphere ℝ) (ray : Ray ℝ)
    (hr : 0 < object.radius) (s : ℝ) :
    onSphere m object ray s ↔
      intersect.a ray * s * s + intersect.b object ray * s + intersect.c object ray = 0 := by
  unfold onSphere length
  rw [hm.sqrt_eq, dot_ray_point, Real.sqrt_eq_iff_mul_self_eq_of_pos hr]
  constructor <;> intro h <;> linarith

/-- With a non-zero direction and a non-negative discriminant, the zeros of the quadratic of
`intersect` are exactly `t1` and `t2`. -/
theorem quadratic_roots (m : MathFns ℝ) (hm : m.IsReal) (object : Sphere ℝ) (ray : Ray ℝ)
    (hdir : ray.dir ≠ 0) (hd : 0 ≤ intersect.discr object ray) (s : ℝ) :
    intersect.a ray * s * s + intersect.b object ray * s + intersect.c object ray = 0 ↔
      s = intersect.t1 m object ray ∨ s = intersect.t2 m object ray := by
  have ha : 0 < intersect.a ray := dot_self_pos hdir
  have hq := quadratic_eq_zero_iff (a := intersect.a ray) (b := intersect.b object ray)
    (c := intersect.c object ray) ha.ne'
    (s := Real.sqrt (intersect.discr object ray))
    (by rw [Real.mul_self_sqrt hd]; unfold discrim intersect.discr; ring) s
  rw [mul_assoc, hq]
  unfold intersect.t1 intersect.t2
  rw [hm.sqrt_eq, div_div, div_div]

/-- With a negative discriminant the quadratic of `intersect` has no zero. -/
theorem quadratic_no_root (object : Sphere ℝ) (ray : Ray ℝ)
    (hd : intersect.discr object ray < 0) (s : ℝ) :
    intersect.a ray * s * s + intersect.b object ray * s + intersect.c object ray ≠ 0 := by
  intro h
  have hsq : (2 * intersect.a ray * s + intersect.b object ray) ^ 2
      = intersect.discr object ray := by
    unfold intersect.discr
    linear_combination 4 * intersect.a ray * h
  nlinarith [sq_nonneg (2 * intersect.a ray * s + intersect.b object ray)]

/-- The field `t` of the result of `intersect`. -/
theorem intersect_t {K : Type} [LinearOrderedField K] (m : MathFns K) (hit0 : Hit K)
    (object : Sphere K) (ray : Ray K) :
    (intersect m hit0 object ray).t =
      if intersect.discr object ray < 0 then -1
      else if intersect.t1 m object ray ≤ 0 then -1
      else if intersect.t2 m object ray > 0 then intersect.t2 m object ray
      else intersect.t1 m object ray := by
  unfold intersect
  dsimp only
  split_ifs <;> rfl

theorem root_order (m : MathFns ℝ) (hm : m.IsReal) (object : Sphere ℝ) (ray : Ray ℝ)
    (hdir : ray.dir ≠ 0) : intersect.t2 m object ray ≤ intersect.t1 m object ray := by
  have ha : 0 < intersect.a ray := dot_self_pos hdir
  have hs : 0 ≤ Real.sqrt (intersect.discr object ray) := Real.sqrt_nonneg _
  unfold intersect.t1 intersect.t2
  rw [hm.sqrt_eq]
  apply div_le_div_of_nonneg_right _ ha.le
  linarith

/-- Claim C7: in real arithmetic, for a ray with a non-zero direction and a sphere whose
discriminant `b*b - 4*a*c` is not negative, the root `t1` of `intersect` is greater than or
equal to the root `t2`. -/
theorem intersect_t1_ge_t2 (m : MathFns ℝ) (hm : m.IsReal) (object : Sphere ℝ) (ray : Ray ℝ)
    (hdir : ray.dir ≠ 0) (_hdiscr : intersect.discr object ray ≥ 0) :
    intersect.t1 m object ray ≥ intersect.t2 m object ray :=
  root_order m hm object ray hdir

/-- Claim C1: in real arithmetic, for a ray with a non-zero direction and a sphere of positive
radius, `intersect` returns `t > 0` exactly when some `s > 0` has
`|start + s*dir - center| = radius`, and then `t` is the smallest such `s`; in every other case
(negative discriminant, or both roots `≤ 0`) it returns `t = -1`. -/
theorem intersect_spec (m : MathFns ℝ) (hm : m.IsReal) (hit0 : Hit ℝ) (object : Sphere ℝ)
    (ray : Ray ℝ) (hdir : ray.dir ≠ 0) (hr : 0 < object.radius) :
    (0 < (intersect m hit0 object ray).t ↔ ∃ s, 0 < s ∧ onSphere m object ray s) ∧
    (0 < (intersect m hit0 object ray).t →
      onSphere m object ray (intersect m hit0 object ray).t ∧
      ∀ s, 0 < s → onSphere m object ray s → (intersect m hit0 object ray).t ≤ s) ∧
    (¬ (∃ s, 0 < s ∧ onSphere m object ray s) → (intersect m hit0 object ray).t = -1) ∧
    ((intersect m hit0 object ray).t = -1 ↔
      (intersect.discr object ray < 0 ∨
        (intersect.t1 m object ray ≤ 0 ∧ intersect.t2 m object ray ≤ 0))) := by
  have hon : ∀ s, onSphere m object ray s ↔
      intersect.a ray * s * s + intersect.b object ray * s + intersect.c object ray = 0 :=
    onSphere_iff m hm object ray hr
  rw [intersect_t]
  by_cases hd : intersect.discr object ray < 0
  · have hno : ¬ ∃ s, 0 < s ∧ onSphere m object ray s := by
      rintro ⟨s, _, hs⟩
      exact quadratic_no_root object ray hd s ((hon s).1 hs)
    rw [if_pos hd]
    refine ⟨⟨fun h => absurd h (by norm_num), fun h => absurd h hno⟩,
      fun h => absurd h (by norm_num), fun _ => rfl, ?_⟩
    simp only [true_iff]
    exact Or.inl hd
  · have hd' : 0 ≤ intersect.discr object ray := not_lt.1 hd
    have hroots : ∀ s, onSphere m object ray s ↔
        s = intersect.t1 m object ray ∨ s = intersect.t2 m object ray := fun s =>
      (hon s).trans (quadratic_roots m hm object ray hdir hd' s)
    have h12 : intersect.t2 m object ray ≤ intersect.t1 m object ray :=
      root_order m hm object ray hdir
    rw [if_neg hd]
    by_cases h1 : intersect.t1 m object ray ≤ 0
    · have hno : ¬ ∃ s, 0 < s ∧ onSphere m object ray s := by
        rintro ⟨s, hs0, hs⟩
        rcases (hroots s).1 hs with h | h <;> linarith
      rw [if_pos h1]
      refine ⟨⟨fun h => absurd h (by norm_num), fun h => absurd h hno⟩,
        fun h => absurd h (by norm_num), fun _ => rfl, ?_⟩
      simp only [true_iff]
      exact Or.inr ⟨h1, h12.trans h1⟩
    · have h1' : 0 < intersect.t1 m object ray := not_le.1 h1
      rw [if_neg h1]
      by_cases h2 : intersect.t2 m object ray > 0
      · rw [if_pos h2]
        refine ⟨⟨fun _ => ⟨_, h2, (hroots _).2 (Or.inr rfl)⟩, fun _ => h2⟩,
          fun _ => ⟨(hroots _).2 (Or.inr rfl), ?_⟩, ?_, ?_⟩
        · intro s _ hs
          rcases (hroots s).1 hs with h | h <;> linarith
        · intro hno
          exact absurd ⟨_, h2, (hroots _).2 (Or.inr rfl)⟩ hno
        · constructor
          · intro h
            linarith
          · rintro (h | ⟨h, _⟩)
            · exact absurd h hd
            · exact absurd h h1
      · rw [if_neg h2]
        have h2' : intersect.t2 m object ray ≤ 0 := not_lt.1 h2
        refine ⟨⟨fun _ => ⟨_, h1', (hroots _).2 (Or.inl rfl)⟩, fun _ => h1'⟩,
          fun _ => ⟨(hroots _).2 (Or.inl rfl), ?_⟩, ?_, ?_⟩
        · intro s hs0 hs
          rcases (hroots s).1 hs with h | h <;> linarith
        · intro hno
          exact absurd ⟨_, h1', (hroots _).2 (Or.inl rfl)⟩ hno
        · constructor
          · intro h
            linarith
          · rintro (h | ⟨h, _⟩)
            · exact absurd h hd
            · exact absurd h h1

theorem centralRay_dir_ne_zero : (centralRay ℝ).dir ≠ 0 :=
  ne_zero_of_z (by norm_num [centralRay])

theorem firstSphere_discr : intersect.discr (firstSphere ℝ) (centralRay ℝ) = 0.04 := by
  norm_num [intersect.discr, intersect.a, intersect.b, intersect.c, dot, firstSphere, centralRay]

/-- Claim C7 at the first sphere of the scene and the ray from the eye towards `lookat`. -/
theorem intersect_t1_ge_t2_witness :
    (centralRay ℝ).dir ≠ 0 ∧ intersect.discr (firstSphere ℝ) (centralRay ℝ) ≥ 0 ∧
    intersect.t1 (MathFns.mk Real.sqrt Real.tan Real.cos Real.sin (fun x y => x ^ y) Real.pi)
        (firstSphere ℝ) (centralRay ℝ)
      ≥ intersect.t2 (MathFns.mk Real.sqrt Real.tan Real.cos Real.sin (fun x y => x ^ y) Real.pi)
        (firstSphere ℝ) (centralRay ℝ) :=
  ⟨centralRay_dir_ne_zero, by rw [firstSphere_discr]; norm_num,
    intersect_t1_ge_t2 _ ⟨rfl, rfl, rfl, rfl, rfl, rfl⟩ (firstSphere ℝ) (centralRay ℝ)
      centralRay_dir_ne_zero (by rw [firstSphere_discr]; norm_num)⟩

/-- Claim C1 at the first sphere of the scene and the ray from the eye towards `lookat`: the
hypotheses hold, and the ray meets the sphere. -/
theorem intersect_spec_witness :
    (centralRay ℝ).dir ≠ 0 ∧ 0 < (firstSphere ℝ).radius ∧
    (0 < (intersect (MathFns.mk Real.sqrt Real.tan Real.cos Real.sin (fun x y => x ^ y) Real.pi)
          (zeroHit ℝ) (firstSphere ℝ) (centralRay ℝ)).t ↔
      ∃ s, 0 < s ∧
        onSphere (MathFns.mk Real.sqrt Real.tan Real.cos Real.sin (fun x y => x ^ y) Real.pi)
          (firstSphere ℝ) (centralRay ℝ) s) :=
  ⟨centralRay_dir_ne_zero, by norm_num [firstSphere],
    (intersect_spec _ ⟨rfl, rfl, rfl, rfl, rfl, rfl⟩ (zeroHit ℝ) (firstSphere ℝ) (centralRay ℝ)
      centralRay_dir_ne_zero (by norm_num [firstSphere])).1⟩

/-! ## The function `firstIntersect` -/

section FirstIntersect

variable {K : Type} [LinearOrderedField K]

/-- The hit record round `o` of `firstIntersect` compares with the best one so far. -/
theorem firstIntersect.step_eq (m : MathFns K) (hit0 : Nat → Hit K) (nObjects : Nat)
    (objects : Nat → Sphere K) (ray : Ray K) (bestHit : Hit K) (o : Nat) :
    firstIntersect.step m hit0 nObjects objects ray bestHit o =
      if 0 < (intersect m (hit0 o) (objects o) ray).t ∧
          (bestHit.t < 0 ∨ (intersect m (hit0 o) (objects o) ray).t < bestHit.t) then
        { intersect m (hit0 o) (objects o) ray with mat := if o < nObjects / 2 then 0 else 1 }
      else bestHit := by
  unfold firstIntersect.step
  by_cases h : o < nObjects / 2 <;> simp [h]

/-- The invariant of the loop of `firstIntersect` after the rounds `0, …, n - 1`. -/
theorem firstIntersect.loop_inv (m : MathFns K) (hit0 : Nat → Hit K) (nObjects : Nat)
    (objects : Nat → Sphere K) (ray : Ray K) (b0 : Hit K) (hb0 : b0.t = -1) (n : Nat) :
    ((List.range n).foldl (firstIntersect.step m hit0 nObjects objects ray) b0 = b0 ∧
      ∀ o, o < n → ¬ 0 < (intersect m (hit0 o) (objects o) ray).t) ∨
    (0 < ((List.range n).foldl (firstIntersect.step m hit0 nObjects objects ray) b0).t ∧
      (∀ o, o < n → 0 < (intersect m (hit0 o) (objects o) ray).t →
        ((List.range n).foldl (firstIntersect.step m hit0 nObjects objects ray) b0).t
          ≤ (intersect m (hit0 o) (objects o) ray).t) ∧
      ∃ o, o < n ∧
        (List.range n).foldl (firstIntersect.step m hit0 nObjects objects ray) b0 =
          { intersect m (hit0 o) (objects o) ray with mat := if o < nObjects / 2 then 0 else 1 }) := by
  induction n with
  | zero =>
    left
    exact ⟨rfl, fun o ho => absurd ho (Nat.not_lt_zero o)⟩
  | succ n ih =>
    rw [List.range_succ, List.foldl_append, List.foldl_cons, List.foldl_nil,
      firstIntersect.step_eq]
    generalize (List.range n).foldl (firstIntersect.step m hit0 nObjects objects ray) b0 = b at ih ⊢
    generalize hh : intersect m (hit0 n) (objects n) ray = h at ih ⊢
    rcases ih with ⟨hb, hno⟩ | ⟨hpos, hmin, o, ho, hbo⟩
    · subst hb
      by_cases hp : 0 < h.t
      · right
        have hc : 0 < h.t ∧ (b.t < 0 ∨ h.t < b.t) := ⟨hp, Or.inl (by rw [hb0]; norm_num)⟩
        rw [if_pos hc]
        refine ⟨hp, ?_, n, Nat.lt_succ_self n, by rw [hh]⟩
        intro o ho hpo
        rcases Nat.lt_succ_iff_lt_or_eq.1 ho with ho' | ho'
        · exact absurd hpo (hno o ho')
        · subst ho'
          rw [hh]
      · left
        have hc : ¬ (0 < h.t ∧ (b.t < 0 ∨ h.t < b.t)) := fun hc => hp hc.1
        rw [if_neg hc]
        refine ⟨rfl, ?_⟩
        intro o ho
        rcases Nat.lt_succ_iff_lt_or_eq.1 ho with ho' | ho'
        · exact hno o ho'
        · subst ho'
          rw [hh]
          exact hp
    · right
      by_cases hc : 0 < h.t ∧ (b.t < 0 ∨ h.t < b.t)
      · rw [if_pos hc]
        have hlt : h.t < b.t := by
          rcases hc.2 with h1 | h1
          · exact absurd h1 (not_lt.2 hpos.le)
          · exact h1
        refine ⟨hc.1, ?_, n, Nat.lt_succ_self n, by rw [hh]⟩
        intro o' ho' hpo
        rcases Nat.lt_succ_iff_lt_or_eq.1 ho' with ho'' | ho''
        · exact hlt.le.trans (hmin o' ho'' hpo)
        · subst ho''
          rw [hh]
      · rw [if_neg hc]
        refine ⟨hpos, ?_, o, Nat.lt_succ_of_lt ho, hbo⟩
        intro o' ho' hpo
        rcases Nat.lt_succ_iff_lt_or_eq.1 ho' with ho'' | ho''
        · exact hmin o' ho'' hpo
        · subst ho''
          rw [hh] at hpo ⊢
          by_contra hcon
          exact hc ⟨hpo, Or.inr (not_le.1 hcon)⟩

/-- Claim C2: `firstIntersect` returns the nearest hit.  For every ray and all `nObjects`
objects, the returned `t` is `-1` iff no object has `intersect(...).t > 0`; otherwise it is the
least of the positive `t` of `intersect` over the objects, the returned position (and material
index) is that of an object attaining it, the returned normal is that object's normal or its
opposite, and in every case the returned normal `n` has `dot(ray.dir, n) ≤ 0`. -/
theorem firstIntersect_nearest (m : MathFns K) (bestHit0 : Hit K) (hit0 : Nat → Hit K)
    (nObjects : Nat) (objects : Nat → Sphere K) (ray : Ray K) :
    ((firstIntersect m bestHit0 hit0 nObjects objects ray).t = -1 ↔
      ∀ o, o < nObjects → ¬ 0 < (intersect m (hit0 o) (objects o) ray).t) ∧
    ((∃ o, o < nObjects ∧ 0 < (intersect m (hit0 o) (objects o) ray).t) →
      0 < (firstIntersect m bestHit0 hit0 nObjects objects ray).t ∧
      (∀ o, o < nObjects → 0 < (intersect m (hit0 o) (objects o) ray).t →
        (firstIntersect m bestHit0 hit0 nObjects objects ray).t
          ≤ (intersect m (hit0 o) (objects o) ray).t) ∧
      ∃ o, o < nObjects ∧
        (intersect m (hit0 o) (objects o) ray).t
          = (firstIntersect m bestHit0 hit0 nObjects objects ray).t ∧
        (firstIntersect m bestHit0 hit0 nObjects objects ray).position
          = (intersect m (hit0 o) (objects o) ray).position ∧
        ((firstIntersect m bestHit0 hit0 nObjects objects ray).normal
            = (intersect m (hit0 o) (objects o) ray).normal ∨
          (firstIntersect m bestHit0 hit0 nObjects objects ray).normal
            = (intersect m (hit0 o) (objects o) ray).normal * (-1 : K)) ∧
        (firstIntersect m bestHit0 hit0 nObjects objects ray).mat
          = if o < nObjects / 2 then 0 else 1) ∧
    dot ray.dir (firstIntersect m bestHit0 hit0 nObjects objects ray).normal ≤ 0 := by
  have hinv := firstIntersect.loop_inv m hit0 nObjects objects ray
    { bestHit0 with t := -1 } rfl nObjects
  have hfi : ∀ b : Hit K,
      (List.range nObjects).foldl (firstIntersect.step m hit0 nObjects objects ray)
        { bestHit0 with t := -1 } = b →
      firstIntersect m bestHit0 hit0 nObjects objects ray =
        if dot ray.dir b.normal > 0 then { b with normal := b.normal * (-1 : K) } else b := by
    intro b hb
    unfold firstIntersect
    simp only [hb]
  generalize hb : (List.range nObjects).foldl (firstIntersect.step m hit0 nObjects objects ray)
    { bestHit0 with t := -1 } = b at hinv
  rw [hfi b hb]
  have ht : (if dot ray.dir b.normal > 0 then { b with normal := b.normal * (-1 : K) } else b).t
      = b.t := by split_ifs <;> rfl
  have hp : (if dot ray.dir b.normal > 0 then { b with normal := b.normal * (-1 : K) }
      else b).position = b.position := by split_ifs <;> rfl
  have hm : (if dot ray.dir b.normal > 0 then { b with normal := b.normal * (-1 : K) }
      else b).mat = b.mat := by split_ifs <;> rfl
  have hn : (if dot ray.dir b.normal > 0 then { b with normal := b.normal * (-1 : K) }
      else b).normal = b.normal ∨
      (if dot ray.dir b.normal > 0 then { b with normal := b.normal * (-1 : K) }
      else b).normal = b.normal * (-1 : K) := by
    split_ifs
    · exact Or.inr rfl
    · exact Or.inl rfl
  have hdot : dot ray.dir (if dot ray.dir b.normal > 0 then
      { b with normal := b.normal * (-1 : K) } else b).normal ≤ 0 := by
    split_ifs with hd
    · have : dot ray.dir (b.normal * (-1 : K)) = - dot ray.dir b.normal := by
        simp only [dot]
        show ray.dir.x * (b.normal.x * -1) + ray.dir.y * (b.normal.y * -1)
          + ray.dir.z * (b.normal.z * -1) = _
        ring
      show dot ray.dir (b.normal * (-1 : K)) ≤ 0
      rw [this]
      linarith
    · exact not_lt.1 hd
  rw [ht, hp, hm]
  refine ⟨?_, ?_, hdot⟩
  · rcases hinv with ⟨hb', hno⟩ | ⟨hpos, _, o, ho, hbo⟩
    · rw [hb']
      exact ⟨fun _ => hno, fun _ => rfl⟩
    · constructor
      · intro h
        rw [h] at hpos
        exact absurd hpos (by norm_num)
      · intro hno
        have := hno o ho
        rw [hbo] at hpos
        exact absurd hpos this
  · rintro ⟨o, ho, hpo⟩
    rcases hinv with ⟨_, hno⟩ | ⟨hpos, hmin, o', ho', hbo⟩
    · exact absurd hpo (hno o ho)
    · refine ⟨hpos, hmin, o', ho', ?_, ?_, ?_, ?_⟩
      · rw [hbo]
      · rw [hbo]
      · rcases hn with h | h
        · left
          rw [h, hbo]
        · right
          rw [h, hbo]
      · rw [hbo]

end FirstIntersect

/-! ## The host program: mode flag and scene -/

/-- The array indices `setUniformObjects` writes are below the number of objects. -/
theorem setUniformObjects_index {K : Type} (objects : List (Sphere K)) (w : UniformWrite K)
    (hw : w ∈ setUniformObjects objects) (o : Nat) (ho : w.name.objectIndex = some o) :
    o < objects.length := by
  unfold setUniformObjects at hw
  rcases List.mem_cons.1 hw with rfl | hw
  · simp [UniformName.objectIndex] at ho
  · simp only [List.mem_flatten, List.mem_map] at hw
    obtain ⟨l, ⟨⟨i, x⟩, hix, rfl⟩, hwl⟩ := hw
    have hi : i < objects.length := by
      have := List.fst_lt_of_mem_enum hix
      simpa using this
    simp only [List.mem_cons, List.mem_singleton, List.not_mem_nil, or_false] at hwl
    rcases hwl with rfl | rfl <;> simp [UniformName.objectIndex] at ho <;> omega

/-- The array indices `setUniformMaterials` writes are below the number of materials. -/
theorem setUniformMaterials_index {K : Type} (materials : List (Material K)) (w : UniformWrite K)
    (hw : w ∈ setUniformMaterials materials) (mat : Nat)
    (hmat : w.name.materialIndex = some mat) : mat < materials.length := by
  unfold setUniformMaterials at hw
  simp only [List.mem_flatten, List.mem_map] at hw
  obtain ⟨l, ⟨⟨i, x⟩, hix, rfl⟩, hwl⟩ := hw
  have hi : i < materials.length := by
    have := List.fst_lt_of_mem_enum hix
    simpa using this
  simp only [List.mem_cons, List.mem_singleton, List.not_mem_nil, or_false] at hwl
  rcases hwl with rfl | rfl | rfl | rfl | rfl | rfl | rfl <;>
    simp [UniformName.materialIndex] at hmat <;> omega

section HostLemmas

variable {K : Type} [LinearOrderedField K]

/-- What `onDisplay` does to a state whose scene has a light. -/
theorem onDisplay_of_lights (m : MathFns K) (a : App K) (h : a.scene.lights ≠ []) :
    ∃ a', onDisplay m a = some a' ∧ a'.scene = a.scene ∧ a'.metaball = a.metaball ∧
      a'.frames = a.frames ++
        [some (if a.metaball then Program.shader_metaball else Program.shader)] := by
  obtain ⟨l, ls, hl⟩ := List.exists_cons_of_ne_nil h
  unfold onDisplay Scene.setUniform1 Scene.setUniform
  by_cases hm : a.metaball = true
  · simp [hm, hl]
  · simp [hm, hl]

/-- A successful `onDisplay` changes neither the scene nor the mode flag. -/
theorem onDisplay_some (m : MathFns K) (a a' : App K) (h : onDisplay m a = some a') :
    a'.scene = a.scene ∧ a'.metaball = a.metaball := by
  unfold onDisplay at h
  split_ifs at h
  · dsimp only at h
    split at h
    · exact absurd h (by simp)
    · cases h
      exact ⟨rfl, rfl⟩
  · split at h
    · exact absurd h (by simp)
    · cases h
      exact ⟨rfl, rfl⟩


/-- What `onKeyboard` does to a state whose scene has a light. -/
theorem onKeyboard_of_lights (m : MathFns K) (key : Char) (a : App K)
    (h : a.scene.lights ≠ []) :
    ∃ a', onKeyboard m key a = some a' ∧
      a'.scene.lights = a.scene.lights ∧ a'.scene.objects = a.scene.objects ∧
      a'.scene.metaballs = a.scene.metaballs ∧ a'.scene.materials = a.scene.materials ∧
      a'.metaball = (if key = 'x' then !a.metaball else a.metaball) := by
  unfold onKeyboard
  by_cases hx : key = 'x'
  · subst hx
    by_cases hm : a.metaball = true
    · obtain ⟨a', ha', hs, hmb, _⟩ := onDisplay_of_lights m { a with metaball := false } h
      simp [hm, ha', Scene.Animate_buttons, hs, hmb]
    · obtain ⟨a', ha', hs, hmb, _⟩ := onDisplay_of_lights m { a with metaball := true } h
      simp [hm, ha', Scene.Animate_buttons, hs, hmb]
  · by_cases ha : key = 'a' <;> by_cases hd : key = 'd' <;>
      simp [hx, ha, hd, Scene.Animate_buttons]

/-- A successful `onKeyboard` leaves the lists of the scene as they are. -/
theorem onKeyboard_some (m : MathFns K) (key : Char) (a a' : App K)
    (h : onKeyboard m key a = some a') :
    a'.scene.lights = a.scene.lights ∧ a'.scene.objects = a.scene.objects ∧
      a'.scene.metaballs = a.scene.metaballs ∧ a'.scene.materials = a.scene.materials ∧
      (key ≠ 'x' → a'.metaball = a.metaball) := by
  unfold onKeyboard at h
  by_cases hx : key = 'x'
  · subst hx
    by_cases hm : a.metaball = true
    · simp only [hm] at h
      cases hd : onDisplay m { a with metaball := false } with
      | none => simp [hd] at h
      | some b =>
        obtain ⟨hs, _⟩ := onDisplay_some m _ _ hd
        simp [hd, Scene.Animate_buttons] at h
        subst h
        simp [hs]
    · simp only [hm] at h
      cases hd : onDisplay m { a with metaball := true } with
      | none => simp [hd] at h
      | some b =>
        obtain ⟨hs, _⟩ := onDisplay_some m _ _ hd
        simp [hd, Scene.Animate_buttons] at h
        subst h
        simp [hs]
  · by_cases ha : key = 'a' <;> by_cases hd : key = 'd' <;>
      simp [hx, ha, hd, Scene.Animate_buttons] at h <;> subst h <;> simp

/-- What `run` does to a state whose scene has a light. -/
theorem run_of_lights (m : MathFns K) (es : List Event) (a : App K)
    (h : a.scene.lights ≠ []) :
    ∃ a', run m es a = some a' ∧ a'.scene.lights = a.scene.lights ∧
      a'.metaball = (if es.count (Event.keyboard 'x') % 2 = 1 then !a.metaball
        else a.metaball) := by
  induction es generalizing a with
  | nil => exact ⟨a, rfl, rfl, by simp⟩
  | cons e es ih =>
    cases e with
    | keyboard key =>
      obtain ⟨b, hb, hl, _, _, _, hmb⟩ := onKeyboard_of_lights m key a h
      obtain ⟨c, hc, hcl, hcm⟩ := ih b (by rw [hl]; exact h)
      refine ⟨c, ?_, by rw [hcl, hl], ?_⟩
      · simp [run, handle, hb, hc]
      · rw [hcm, hmb]
        by_cases hx : key = 'x'
        · subst hx
          rw [List.count_cons_self]
          rcases Nat.mod_two_eq_zero_or_one (List.count (Event.keyboard 'x') es) with h0 | h0
          · have : (List.count (Event.keyboard 'x') es + 1) % 2 = 1 := by omega
            simp [h0, this]
          · have : (List.count (Event.keyboard 'x') es + 1) % 2 = 0 := by omega
            simp [h0, this]
        · have hne : Event.keyboard key ≠ Event.keyboard 'x' := by
            intro hh
            cases hh
            exact hx rfl
          rw [List.count_cons_of_ne hne.symm]
          simp [hx]
    | display =>
      obtain ⟨b, hb, hs, hmb, _⟩ := onDisplay_of_lights m a h
      obtain ⟨c, hc, hcl, hcm⟩ := ih b (by rw [hs]; exact h)
      refine ⟨c, ?_, by rw [hcl, hs], ?_⟩
      · simp [run, handle, hb, hc]
      · rw [hcm, hmb, List.count_cons_of_ne (by simp)]
    | idle =>
      obtain ⟨c, hc, hcl, hcm⟩ := ih (onIdle a) h
      refine ⟨c, ?_, hcl, ?_⟩
      · simp [run, handle, hc]
      · rw [hcm, List.count_cons_of_ne (by simp)]
        rfl


/-- The scene after `onInitialization` has a light. -/
theorem onInitialization_lights (m : MathFns K) (m0 m1 : Material K) (camera : Camera K) :
    (onInitialization m m0 m1 (App.initial camera)).scene.lights ≠ [] := by
  simp [onInitialization, Scene.build, App.initial]

/-- The frame the handler of key `x` draws. -/
theorem onKeyboard_x (m : MathFns K) (a a' : App K) (h : onKeyboard m 'x' a = some a') :
    a'.metaball = (!a.metaball) ∧
      a'.frames = a.frames ++
        [some (if a'.metaball then Program.shader_metaball else Program.shader)] := by
  unfold onKeyboard at h
  by_cases hm : a.metaball = true
  · simp only [hm] at h
    cases hd : onDisplay m { a with metaball := false } with
    | none => simp [hd] at h
    | some b =>
      simp [hd] at h
      subst h
      unfold onDisplay at hd
      simp at hd
      split at hd
      · exact absurd hd (by simp)
      · cases hd
        simp [hm]
  · simp only [hm] at h
    cases hd : onDisplay m { a with metaball := true } with
    | none => simp [hd] at h
    | some b =>
      simp [hd] at h
      subst h
      unfold onDisplay at hd
      simp at hd
      split at hd
      · exact absurd hd (by simp)
      · cases hd
        simp [hm]

/-- Claim C3: the two fragment programs alternate under key `x`.  From the state after
`onInitialization` (ray tracing mode), every sequence of callbacks (key presses, and also
redisplays and idle calls) runs through, after it the flag `metaball` is set iff the number of
presses of `x` so far is odd, and the frame `onDisplay` then draws uses the metaball program iff
that number is odd; the frame the handler of `x` itself draws uses the program of the new mode;
and every key other than `x` leaves the flag as it is. -/
theorem mode_alternates (m : MathFns K) (m0 m1 : Material K) (camera : Camera K)
    (es : List Event) :
    (∃ a, run m es (onInitialization m m0 m1 (App.initial camera)) = some a ∧
      (a.metaball = true ↔ es.count (Event.keyboard 'x') % 2 = 1) ∧
      ∃ a', onDisplay m a = some a' ∧
        a'.frames = a.frames ++
          [some (if es.count (Event.keyboard 'x') % 2 = 1 then Program.shader_metaball
            else Program.shader)]) ∧
    (∀ (a a' : App K), onKeyboard m 'x' a = some a' →
      a'.metaball = (!a.metaball) ∧
      a'.frames = a.frames ++
        [some (if a'.metaball then Program.shader_metaball else Program.shader)]) ∧
    (∀ (key : Char) (a a' : App K), key ≠ 'x' → onKeyboard m key a = some a' →
      a'.metaball = a.metaball) := by
  refine ⟨?_, onKeyboard_x m, fun key a a' hk h => (onKeyboard_some m key a a' h).2.2.2.2 hk⟩
  have h0 := onInitialization_lights m m0 m1 camera
  obtain ⟨a, ha, hl, hmb⟩ := run_of_lights m es _ h0
  have hmb' : a.metaball = true ↔ es.count (Event.keyboard 'x') % 2 = 1 := by
    rw [hmb]
    by_cases hc : es.count (Event.keyboard 'x') % 2 = 1 <;>
      simp [hc, onInitialization, App.initial]
  obtain ⟨a', ha', _, _, hf⟩ := onDisplay_of_lights m a (by rw [hl]; exact h0)
  refine ⟨a, ha, hmb', a', ha', ?_⟩
  rw [hf]
  by_cases hc : es.count (Event.keyboard 'x') % 2 = 1
  · simp [hc, hmb'.2 hc]
  · have : a.metaball = false := by
      cases hb : a.metaball with
      | false => rfl
      | true => exact absurd (hmb'.1 hb) hc
    simp [hc, this]

/-- Claim C4: the scene is fixed and fits the limits of the shaders.  After one `Scene::build`
on the empty scene there are exactly 3 ray traced spheres, 6 metaballs, 2 materials and 1 light;
every index `setUniformObjects` writes (for the spheres and for the metaballs) is below
`nMaxObjects = 500`, every index `setUniformMaterials` writes is below the array size 2 of the
shader, and `lights[0]` exists; neither the key handler nor the display handler changes the
four lists. -/
theorem scene_fits_shader_limits (m : MathFns K) (m0 m1 : Material K) (camera : Camera K) :
    (Scene.build m m0 m1 (App.initial camera).scene).objects.length = 3 ∧
    (Scene.build m m0 m1 (App.initial camera).scene).metaballs.length = 6 ∧
    (Scene.build m m0 m1 (App.initial camera).scene).materials.length = 2 ∧
    (Scene.build m m0 m1 (App.initial camera).scene).lights.length = 1 ∧
    (∀ w ∈ setUniformObjects (Scene.build m m0 m1 (App.initial camera).scene).objects,
      ∀ o, w.name.objectIndex = some o → o < nMaxObjects) ∧
    (∀ w ∈ setUniformObjects (Scene.build m m0 m1 (App.initial camera).scene).metaballs,
      ∀ o, w.name.objectIndex = some o → o < nMaxObjects) ∧
    (∀ w ∈ setUniformMaterials (Scene.build m m0 m1 (App.initial camera).scene).materials,
      ∀ mat, w.name.materialIndex = some mat → mat < 2) ∧
    (Scene.build m m0 m1 (App.initial camera).scene).lights[0]?.isSome = true ∧
    (∀ (key : Char) (a a' : App K), onKeyboard m key a = some a' →
      a'.scene.objects = a.scene.objects ∧ a'.scene.metaballs = a.scene.metaballs ∧
      a'.scene.materials = a.scene.materials ∧ a'.scene.lights = a.scene.lights) ∧
    (∀ (a a' : App K), onDisplay m a = some a' →
      a'.scene.objects = a.scene.objects ∧ a'.scene.metaballs = a.scene.metaballs ∧
      a'.scene.materials = a.scene.materials ∧ a'.scene.lights = a.scene.lights) := by
  have ho : (Scene.build m m0 m1 (App.initial camera).scene).objects.length = 3 := by
    simp [Scene.build, App.initial]
  have hb : (Scene.build m m0 m1 (App.initial camera).scene).metaballs.length = 6 := by
    simp [Scene.build, App.initial]
  have hm : (Scene.build m m0 m1 (App.initial camera).scene).materials.length = 2 := by
    simp [Scene.build, App.initial]
  have hl : (Scene.build m m0 m1 (App.initial camera).scene).lights.length = 1 := by
    simp [Scene.build, App.initial]
  refine ⟨ho, hb, hm, hl, ?_, ?_, ?_, ?_, ?_, ?_⟩
  · intro w hw o hwo
    have := setUniformObjects_index _ w hw o hwo
    rw [ho] at this
    unfold nMaxObjects
    omega
  · intro w hw o hwo
    have := setUniformObjects_index _ w hw o hwo
    rw [hb] at this
    unfold nMaxObjects
    omega
  · intro w hw mat hwm
    have := setUniformMaterials_index _ w hw mat hwm
    rw [hm] at this
    exact this
  · simp [Scene.build, App.initial]
  · intro key a a' h
    obtain ⟨h1, h2, h3, h4, _⟩ := onKeyboard_some m key a a' h
    exact ⟨h2, h3, h4, h1⟩
  · intro a a' h
    obtain ⟨hs, _⟩ := onDisplay_some m a a' h
    rw [hs]
    exact ⟨rfl, rfl, rfl, rfl⟩


end HostLemmas

/-! ## The camera window -/

/-- Claim C8, amended: in real arithmetic, for the camera that
`Camera::set(eye, lookat, vup, fov)` produces with `eye ≠ lookat`, `vup` not parallel to
`eye - lookat` and `tan(fov/2) > 0` (as for every `0 < fov < π`), and for every window vertex
`(vx, vy)`, the point `p = lookat + right*vx + up*vy` of the vertex shader satisfies
`dot(p - lookat, eye - lookat) = 0`, and `right` and `up` are orthogonal and both of length
`|eye - lookat| * tan(fov/2)`. -/
theorem camera_window (m : MathFns ℝ) (hm : m.IsReal) (eye lookat vup : Vec3 ℝ) (fov vx vy : ℝ)
    (he : eye ≠ lookat) (hv : cross vup (eye - lookat) ≠ 0) (ht : 0 < Real.tan (fov / 2)) :
    dot ((vertexMain (Camera.set m eye lookat vup fov).lookat
            (Camera.set m eye lookat vup fov).right (Camera.set m eye lookat vup fov).up vx vy).p
          - (Camera.set m eye lookat vup fov).lookat)
        ((Camera.set m eye lookat vup fov).eye - (Camera.set m eye lookat vup fov).lookat) = 0 ∧
    dot (Camera.set m eye lookat vup fov).right (Camera.set m eye lookat vup fov).up = 0 ∧
    length m (Camera.set m eye lookat vup fov).right
      = length m (eye - lookat) * Real.tan (fov / 2) ∧
    length m (Camera.set m eye lookat vup fov).up
      = length m (eye - lookat) * Real.tan (fov / 2) := by
  have hw : eye - lookat ≠ 0 := by
    intro h
    apply he
    have hx := congrArg Vec3.x h
    have hy := congrArg Vec3.y h
    have hz := congrArg Vec3.z h
    simp only [Vec3.sub_x, Vec3.sub_y, Vec3.sub_z, Vec3.zero_x, Vec3.zero_y, Vec3.zero_z] at hx hy hz
    ext
    · linarith
    · linarith
    · linarith
  have hf : 0 < length m (eye - lookat) := length_pos m hm hw
  simp only [Camera.set, vertexMain, hm.tan_eq]
  generalize hright : normalize m (cross vup (eye - lookat)) * length m (eye - lookat)
    * Real.tan (fov / 2) = right
  generalize hup : normalize m (cross (eye - lookat) right) * length m (eye - lookat)
    * Real.tan (fov / 2) = up
  have hlr : length m right = length m (eye - lookat) * Real.tan (fov / 2) := by
    rw [← hright, length_smul m hm _ ht.le, length_smul m hm _ hf.le, length_normalize m hm hv,
      one_mul]
  have hrw : dot right (eye - lookat) = 0 := by
    rw [← hright, dot_smul_left, dot_smul_left]
    unfold normalize
    rw [dot_smul_left, dot_cross_right]
    ring
  have hr0 : right ≠ 0 := ne_zero_of_length_pos m hm (by rw [hlr]; positivity)
  have hc2 : cross (eye - lookat) right ≠ 0 := by
    intro h
    have h1 := dot_cross_self (eye - lookat) right
    rw [h, dot_comm (eye - lookat) right, hrw] at h1
    have h2 : dot (0 : Vec3 ℝ) 0 = 0 := by simp [dot]
    rw [h2] at h1
    have := mul_pos (dot_self_pos hw) (dot_self_pos hr0)
    linarith
  have hlu : length m up = length m (eye - lookat) * Real.tan (fov / 2) := by
    rw [← hup, length_smul m hm _ ht.le, length_smul m hm _ hf.le, length_normalize m hm hc2,
      one_mul]
  have huw : dot up (eye - lookat) = 0 := by
    rw [← hup, dot_smul_left, dot_smul_left]
    unfold normalize
    rw [dot_smul_left, dot_cross_left]
    ring
  have hru : dot right up = 0 := by
    rw [← hup, dot_smul_right, dot_smul_right]
    unfold normalize
    rw [dot_smul_right, dot_comm, dot_cross_right]
    ring
  refine ⟨?_, hru, hlr, hlu⟩
  simp only [dot, Vec3.sub_x, Vec3.sub_y, Vec3.sub_z, Vec3.add_x, Vec3.add_y, Vec3.add_z,
    Vec3.smul_x, Vec3.smul_y, Vec3.smul_z] at hrw huw ⊢
  linear_combination vx * hrw + vy * huw


theorem sceneEye_ne_sceneLookat : sceneEye ℝ ≠ sceneLookat ℝ := by
  intro h
  have hz := congrArg Vec3.z h
  norm_num [sceneEye, sceneLookat] at hz

theorem sceneVup_cross_ne_zero : cross (sceneVup ℝ) (sceneEye ℝ - sceneLookat ℝ) ≠ 0 := by
  intro h
  have hx := congrArg Vec3.x h
  norm_num [cross, sceneVup, sceneEye, sceneLookat] at hx

theorem tan_scene_fov_pos : 0 < Real.tan (45 * Real.pi / 180 / 2) := by
  have hpi := Real.pi_pos
  apply Real.tan_pos_of_pos_of_lt_pi_div_two <;> linarith

/-- Claim C8, amended, at the camera of `Scene::build` (field of view 45 degrees) and the
window vertex `(1, 1)`. -/
theorem camera_window_witness :
    sceneEye ℝ ≠ sceneLookat ℝ ∧ cross (sceneVup ℝ) (sceneEye ℝ - sceneLookat ℝ) ≠ 0 ∧
    0 < Real.tan (45 * Real.pi / 180 / 2) ∧
    dot (Camera.set (MathFns.mk Real.sqrt Real.tan Real.cos Real.sin (fun x y => x ^ y) Real.pi) (sceneEye ℝ) (sceneLookat ℝ) (sceneVup ℝ) (45 * Real.pi / 180)).right
        (Camera.set (MathFns.mk Real.sqrt Real.tan Real.cos Real.sin (fun x y => x ^ y) Real.pi) (sceneEye ℝ) (sceneLookat ℝ) (sceneVup ℝ) (45 * Real.pi / 180)).up = 0 ∧
    length (MathFns.mk Real.sqrt Real.tan Real.cos Real.sin (fun x y => x ^ y) Real.pi) (Camera.set (MathFns.mk Real.sqrt Real.tan Real.cos Real.sin (fun x y => x ^ y) Real.pi) (sceneEye ℝ) (sceneLookat ℝ) (sceneVup ℝ) (45 * Real.pi / 180)).right
      = length (MathFns.mk Real.sqrt Real.tan Real.cos Real.sin (fun x y => x ^ y) Real.pi) (sceneEye ℝ - sceneLookat ℝ) * Real.tan (45 * Real.pi / 180 / 2) :=
  ⟨sceneEye_ne_sceneLookat, sceneVup_cross_ne_zero, tan_scene_fov_pos,
    (camera_window (MathFns.mk Real.sqrt Real.tan Real.cos Real.sin (fun x y => x ^ y) Real.pi) ⟨rfl, rfl, rfl, rfl, rfl, rfl⟩ (sceneEye ℝ) (sceneLookat ℝ) (sceneVup ℝ)
      (45 * Real.pi / 180) 1 1 sceneEye_ne_sceneLookat sceneVup_cross_ne_zero
      tan_scene_fov_pos).2.1,
    (camera_window (MathFns.mk Real.sqrt Real.tan Real.cos Real.sin (fun x y => x ^ y) Real.pi) ⟨rfl, rfl, rfl, rfl, rfl, rfl⟩ (sceneEye ℝ) (sceneLookat ℝ) (sceneVup ℝ)
      (45 * Real.pi / 180) 1 1 sceneEye_ne_sceneLookat sceneVup_cross_ne_zero
      tan_scene_fov_pos).2.2.1⟩

/-- Claim C8 as stated fails: with the eye, `lookat` and `vup` of the scene and the field of
view `fov = 3π/2`, where `tan(fov/2) = -1`, the hypotheses of the claim hold and the length of
`right` is not `|eye - lookat| * tan(fov/2)`, which is negative. -/
theorem camera_window_counterexample :
    sceneEye ℝ ≠ sceneLookat ℝ ∧ cross (sceneVup ℝ) (sceneEye ℝ - sceneLookat ℝ) ≠ 0 ∧
    length (MathFns.mk Real.sqrt Real.tan Real.cos Real.sin (fun x y => x ^ y) Real.pi) (Camera.set (MathFns.mk Real.sqrt Real.tan Real.cos Real.sin (fun x y => x ^ y) Real.pi) (sceneEye ℝ) (sceneLookat ℝ) (sceneVup ℝ) (3 * Real.pi / 2)).right
      ≠ length (MathFns.mk Real.sqrt Real.tan Real.cos Real.sin (fun x y => x ^ y) Real.pi) (sceneEye ℝ - sceneLookat ℝ) * Real.tan (3 * Real.pi / 2 / 2) := by
  refine ⟨sceneEye_ne_sceneLookat, sceneVup_cross_ne_zero, ?_⟩
  have hm : MathFns.IsReal (MathFns.mk Real.sqrt Real.tan Real.cos Real.sin (fun x y => x ^ y) Real.pi) := ⟨rfl, rfl, rfl, rfl, rfl, rfl⟩
  have hw : sceneEye ℝ - sceneLookat ℝ ≠ 0 :=
    ne_zero_of_z (by norm_num [sceneEye, sceneLookat])
  have hf := length_pos _ hm hw
  have hl := length_nonneg _ hm
    (Camera.set (MathFns.mk Real.sqrt Real.tan Real.cos Real.sin (fun x y => x ^ y) Real.pi) (sceneEye ℝ) (sceneLookat ℝ) (sceneVup ℝ) (3 * Real.pi / 2)).right
  have ht : Real.tan (3 * Real.pi / 2 / 2) = -1 := by
    have h : 3 * Real.pi / 2 / 2 = Real.pi - Real.pi / 4 := by ring
    rw [h, Real.tan_pi_sub, Real.tan_pi_div_four]
  rw [ht]
  intro h
  rw [h] at hl
  linarith

/-! ## The metaball ray marcher -/

namespace MetaBall

section Loops

variable {K : Type} [LinearOrderedField K]

end Loops

end MetaBall

/-! ## The materials of the scene -/

theorem sqrt_one_twentyfifth : Real.sqrt 0.04 = 0.2 := by
  rw [show (0.04 : ℝ) = 0.2 * 0.2 by norm_num]
  exact Real.sqrt_mul_self (by norm_num)

theorem sideRay_first (hit0 : Hit ℝ) :
    (intersect (MathFns.mk Real.sqrt Real.tan Real.cos Real.sin (fun x y => x ^ y) Real.pi) hit0
      (sceneObjects ℝ (MathFns.mk Real.sqrt Real.tan Real.cos Real.sin (fun x y => x ^ y) Real.pi) 0)
      (sideRay ℝ)).t = -1 := by
  rw [intersect_t]
  have hd : intersect.discr
      (sceneObjects ℝ (MathFns.mk Real.sqrt Real.tan Real.cos Real.sin (fun x y => x ^ y) Real.pi) 0)
      (sideRay ℝ) < 0 := by
    norm_num [intersect.discr, intersect.a, intersect.b, intersect.c, dot, sceneObjects,
      builtScene, onInitialization, Scene.build, App.initial, sideRay]
  rw [if_pos hd]

theorem sideRay_second (hit0 : Hit ℝ) :
    (intersect (MathFns.mk Real.sqrt Real.tan Real.cos Real.sin (fun x y => x ^ y) Real.pi) hit0
      (sceneObjects ℝ (MathFns.mk Real.sqrt Real.tan Real.cos Real.sin (fun x y => x ^ y) Real.pi) 1)
      (sideRay ℝ)).t = -1 := by
  rw [intersect_t]
  have hd : intersect.discr
      (sceneObjects ℝ (MathFns.mk Real.sqrt Real.tan Real.cos Real.sin (fun x y => x ^ y) Real.pi) 1)
      (sideRay ℝ) < 0 := by
    norm_num [intersect.discr, intersect.a, intersect.b, intersect.c, dot, sceneObjects,
      builtScene, onInitialization, Scene.build, App.initial, sideRay]
  rw [if_pos hd]

theorem sideRay_third (hit0 : Hit ℝ) :
    (intersect (MathFns.mk Real.sqrt Real.tan Real.cos Real.sin (fun x y => x ^ y) Real.pi) hit0
      (sceneObjects ℝ (MathFns.mk Real.sqrt Real.tan Real.cos Real.sin (fun x y => x ^ y) Real.pi) 2)
      (sideRay ℝ)).t = 2.4 := by
  rw [intersect_t]
  have hd : intersect.discr
      (sceneObjects ℝ (MathFns.mk Real.sqrt Real.tan Real.cos Real.sin (fun x y => x ^ y) Real.pi) 2)
      (sideRay ℝ) = 0.04 := by
    norm_num [intersect.discr, intersect.a, intersect.b, intersect.c, dot, sceneObjects,
      builtScene, onInitialization, Scene.build, App.initial, sideRay]
  have h1 : intersect.t1
      (MathFns.mk Real.sqrt Real.tan Real.cos Real.sin (fun x y => x ^ y) Real.pi)
      (sceneObjects ℝ (MathFns.mk Real.sqrt Real.tan Real.cos Real.sin (fun x y => x ^ y) Real.pi) 2)
      (sideRay ℝ) = 2.6 := by
    unfold intersect.t1
    rw [hd]
    dsimp only
    rw [sqrt_one_twentyfifth]
    norm_num [intersect.a, intersect.b, dot, sceneObjects,
      builtScene, onInitialization, Scene.build, App.initial, sideRay]
  have h2 : intersect.t2
      (MathFns.mk Real.sqrt Real.tan Real.cos Real.sin (fun x y => x ^ y) Real.pi)
      (sceneObjects ℝ (MathFns.mk Real.sqrt Real.tan Real.cos Real.sin (fun x y => x ^ y) Real.pi) 2)
      (sideRay ℝ) = 2.4 := by
    unfold intersect.t2
    rw [hd]
    dsimp only
    rw [sqrt_one_twentyfifth]
    norm_num [intersect.a, intersect.b, dot, sceneObjects,
      builtScene, onInitialization, Scene.build, App.initial, sideRay]
  rw [hd, h1, h2]
  norm_num

/-- Claim C6 at the built scene: the scene has 3 spheres; the ray `sideRay` meets the third of
them (index `2 ≥ 3/2`), and `firstIntersect` gives the hit the material index 1; the material
with index 1 is a `RoughMaterial`, with `rough = 1` and `reflective = 0`, and so is the value
`setUniformMaterials` uploads for `materials[1].reflective`. -/
theorem second_material_rough :
    (builtScene ℝ (MathFns.mk Real.sqrt Real.tan Real.cos Real.sin (fun x y => x ^ y) Real.pi)
      ).objects.length = 3 ∧
    (firstIntersect (MathFns.mk Real.sqrt Real.tan Real.cos Real.sin (fun x y => x ^ y) Real.pi)
      (zeroHit ℝ) (fun _ => zeroHit ℝ) 3
      (sceneObjects ℝ (MathFns.mk Real.sqrt Real.tan Real.cos Real.sin (fun x y => x ^ y) Real.pi))
      (sideRay ℝ)).t = 2.4 ∧
    (firstIntersect (MathFns.mk Real.sqrt Real.tan Real.cos Real.sin (fun x y => x ^ y) Real.pi)
      (zeroHit ℝ) (fun _ => zeroHit ℝ) 3
      (sceneObjects ℝ (MathFns.mk Real.sqrt Real.tan Real.cos Real.sin (fun x y => x ^ y) Real.pi))
      (sideRay ℝ)).mat = 1 ∧
    ((builtScene ℝ (MathFns.mk Real.sqrt Real.tan Real.cos Real.sin (fun x y => x ^ y) Real.pi)
      ).materials[1]?.map fun x => (x.rough, x.reflective)) = some (1, 0) ∧
    (⟨UniformName.materialReflective 1, UniformValue.int 0⟩ : UniformWrite ℝ) ∈
      setUniformMaterials
        (builtScene ℝ (MathFns.mk Real.sqrt Real.tan Real.cos Real.sin (fun x y => x ^ y) Real.pi)
          ).materials := by
  have hfold : (List.range 3).foldl
      (firstIntersect.step
        (MathFns.mk Real.sqrt Real.tan Real.cos Real.sin (fun x y => x ^ y) Real.pi)
        (fun _ => zeroHit ℝ) 3
        (sceneObjects ℝ
          (MathFns.mk Real.sqrt Real.tan Real.cos Real.sin (fun x y => x ^ y) Real.pi))
        (sideRay ℝ)) { zeroHit ℝ with t := -1 }
      = { intersect (MathFns.mk Real.sqrt Real.tan Real.cos Real.sin (fun x y => x ^ y) Real.pi)
            (zeroHit ℝ)
            (sceneObjects ℝ
              (MathFns.mk Real.sqrt Real.tan Real.cos Real.sin (fun x y => x ^ y) Real.pi) 2)
            (sideRay ℝ) with mat := 1 } := by
    rw [show List.range 3 = [0, 1, 2] from rfl]
    simp only [List.foldl_cons, List.foldl_nil, firstIntersect.step_eq, sideRay_first,
      sideRay_second, sideRay_third]
    norm_num
  refine ⟨by simp [builtScene, onInitialization, Scene.build, App.initial], ?_, ?_,
    by simp [builtScene, onInitialization, Scene.build, App.initial, RoughMaterial],
    by simp [builtScene, onInitialization, Scene.build, App.initial, RoughMaterial,
      setUniformMaterials, List.enum, List.enumFrom]⟩
  · unfold firstIntersect
    simp only [hfold]
    split_ifs
    · exact sideRay_third _
    · exact sideRay_third _
  · unfold firstIntersect
    simp only [hfold]
    split_ifs <;> rfl

end ComputeShader
